import Mathlib

/-!
Shallow embedding of the job-description-extractor dashboard
(src/src/components/Dashboard.tsx and the results page, src/unnamed/part_000).

External collaborators (storage upload, text extraction, AI text generation,
`JSON.parse`, the clock) are modelled as oracle function parameters; the
repository's own logic (media-type filtering, record creation, the per-record
analysis task, status merging, deletion, and the CSV/JSON export encoders) is
translated directly from the source.
-/

namespace JDX

/-- The four record states of `JobDescription.status` in Dashboard.tsx. -/
inductive Status where
  | uploaded
  | processing
  | analyzed
  | error
deriving DecidableEq, BEq, Repr

/-- Minimal JSON value type standing for the result of `JSON.parse` /
the argument of `JSON.stringify` (the payload is treated as opaque). -/
inductive Json where
  | str : String → Json
  | num : Int → Json
  | arr : List Json → Json
  | obj : List (String × Json) → Json

/-- The `JobDescription` interface of Dashboard.tsx (optional fields become
`Option`). -/
structure JobDescription where
  id : String
  filename : String
  fileUrl : String
  fileType : String
  fileSize : Nat
  status : Status
  uploadedAt : String
  analyzedAt : Option String := none
  extractedContent : Option String := none
  analysisResults : Option Json := none

/-- A candidate `File` as seen by `handleFiles`: declared name, media type
and byte size. -/
structure FileInfo where
  name : String
  type : String
  size : Nat
deriving DecidableEq, Repr

/-- The user-facing toast notifications the dashboard can emit. -/
inductive Toast where
  | invalidFileFormat
  | uploadSuccess (filename : String)
  | uploadFailure (filename : String)
  | noFilesToAnalyze
  | analysisComplete (count : Nat)
  | analysisFailed
  | noResultsToDownload
  | resultsDownloaded
  | fileDeleted
deriving DecidableEq, Repr

/-- JavaScript `Array.prototype.join(sep)` on a list of strings. -/
def joinWith (sep : String) : List String → String
  | [] => ""
  | a :: rest => rest.foldl (fun acc x => acc ++ sep ++ x) a

/-- The media-type allow-list of `handleFiles` (Dashboard.tsx lines 68-72). -/
def isValidType (t : String) : Bool :=
  t == "application/pdf" ||
  t == "application/msword" ||
  t == "application/vnd.openxmlformats-officedocument.wordprocessingml.document"

/-- Outcome of one `handleFiles` call: the records appended to the working
set, the toasts shown, and how many storage uploads were attempted. -/
structure FilesOutcome where
  records : List JobDescription
  toasts : List Toast
  uploadsAttempted : Nat

/-- The storage destination path for the `i`-th accepted file
(Dashboard.tsx line 89): `job-descriptions/${Date.now()}-${file.name}`.
`now` gives the value of each successive `Date.now()` call; the loop makes
two per file (one for the path, one for the record id). -/
def uploadPath (now : Nat → Nat) (i : Nat) (f : FileInfo) : String :=
  "job-descriptions/" ++ toString (now (2 * i)) ++ "-" ++ f.name

/-- The record appended on a successful upload (Dashboard.tsx lines 93-101):
id is the string form of `Date.now()`, status starts as `uploaded`, and no
analysis field is set. -/
def mkUploadedRecord (now : Nat → Nat) (upAt : Nat → String)
    (i : Nat) (f : FileInfo) (url : String) : JobDescription :=
  { id := toString (now (2 * i + 1))
    filename := f.name
    fileUrl := url
    fileType := f.type
    fileSize := f.size
    status := Status.uploaded
    uploadedAt := upAt i }

/-- The sequential upload loop of `handleFiles` (lines 85-117).  `upload` is
the storage collaborator (destination path, file ↦ public URL or failure)
and `upAt` the `new Date().toISOString()` string per file.  A failed upload
creates no record, only a per-file failure toast, and the loop continues
with the remaining files. -/
def uploadLoop (upload : String → FileInfo → Except Unit String)
    (now : Nat → Nat) (upAt : Nat → String) :
    Nat → List FileInfo → List JobDescription × List Toast
  | _, [] => ([], [])
  | i, f :: fs =>
    match upload (uploadPath now i f) f with
    | Except.ok url =>
        (mkUploadedRecord now upAt i f url :: (uploadLoop upload now upAt (i + 1) fs).1,
         Toast.uploadSuccess f.name :: (uploadLoop upload now upAt (i + 1) fs).2)
    | Except.error _ =>
        ((uploadLoop upload now upAt (i + 1) fs).1,
         Toast.uploadFailure f.name :: (uploadLoop upload now upAt (i + 1) fs).2)

/-- `handleFiles` (Dashboard.tsx lines 67-120): filter by the media-type
allow-list; if the filtered set is empty show a single warning toast and
attempt no upload; otherwise upload the accepted files one by one. -/
def handleFiles (upload : String → FileInfo → Except Unit String)
    (now : Nat → Nat) (upAt : Nat → String) (files : List FileInfo) : FilesOutcome :=
  let validFiles := files.filter (fun f => isValidType f.type)
  if validFiles.isEmpty then
    { records := [], toasts := [Toast.invalidFileFormat], uploadsAttempted := 0 }
  else
    let r := uploadLoop upload now upAt 0 validFiles
    { records := r.1, toasts := r.2, uploadsAttempted := validFiles.length }

/-- `deleteJobDescription` (Dashboard.tsx lines 122-128): keep every record
whose id differs from the requested one. -/
def deleteJobDescription (id : String) (jds : List JobDescription) : List JobDescription :=
  jds.filter (fun jd => jd.id != id)

/-- The prompt built for the inference collaborator (Dashboard.tsx
lines 155-170), as a function of the extracted content. -/
def buildPrompt (extractedContent : String) : String :=
  "Analyze this job description and extract key information in JSON format. Include:\n" ++
  "- Job title\n- Company name\n- Location\n" ++
  "- Employment type (full-time, part-time, contract, etc.)\n" ++
  "- Required skills and qualifications\n- Responsibilities\n" ++
  "- Salary range (if mentioned)\n- Benefits (if mentioned)\n" ++
  "- Experience level required\n- Education requirements\n\n" ++
  "Job description content:\n" ++ extractedContent ++
  "\n\nReturn only valid JSON format."

/-- One per-record analysis task (Dashboard.tsx lines 148-188): extract from
the record's stored URL, run inference on the prompt, parse the returned
text as JSON.  Any failure in the three steps is caught and yields the same
record with status `error` (all other fields kept by the `...jd` spread);
success yields status `analyzed` plus timestamp, extracted text and parsed
payload. -/
def analyzeTask (extract : String → Except Unit String)
    (gen : String → Except Unit String) (parse : String → Option Json)
    (nowStr : String) (jd : JobDescription) : JobDescription :=
  match extract jd.fileUrl with
  | Except.error _ => { jd with status := Status.error }
  | Except.ok content =>
    match gen (buildPrompt content) with
    | Except.error _ => { jd with status := Status.error }
    | Except.ok text =>
      match parse text with
      | none => { jd with status := Status.error }
      | some payload =>
          { jd with
            status := Status.analyzed
            analyzedAt := some nowStr
            extractedContent := some content
            analysisResults := some payload }

/-- The transient pre-step of `analyzeJobDescriptions` (lines 143-145):
every record is marked `processing` (all other fields kept). -/
def markProcessing (jds : List JobDescription) : List JobDescription :=
  jds.map (fun jd => { jd with status := Status.processing })

/-- `analyzeJobDescriptions` final working set (Dashboard.tsx lines 130-210):
an empty set is rejected up front and left unchanged; otherwise every record
is replaced by its own task's outcome (`Promise.all` over the captured
list, then one `setJobDescriptions` with the settled results). -/
def analyzeRun (extract : String → Except Unit String)
    (gen : String → Except Unit String) (parse : String → Option Json)
    (nowStr : String) (jds : List JobDescription) : List JobDescription :=
  if jds.isEmpty then jds
  else jds.map (analyzeTask extract gen parse nowStr)

/-! ## Results page (src/unnamed/part_000) -/

/-- The fixed, ordered column schema of the results table
(part_000 lines 29-69). -/
def columnNames : List String :=
  ["FileName",
   "Job Title / Position Name",
   "Reports To / Supervisor",
   "Company",
   "Grade",
   "Job Code",
   "FLSA Status",
   "Department",
   "Date Reviewed",
   "Job Summary / Scope of Position",
   "Position Summary of Major Accountabilities / Essential Functions",
   "Duties",
   "Duties - Weight",
   "Acquisition & Deployment",
   "Operational Management",
   "MARGINAL FUNCTIONS",
   "Supervision",
   "SUPERVISION - Received",
   "Minimum Experience / EDUCATION & EXPERIENCE:",
   "Requirements, Certifications and Licensure",
   "Patient Population Served",
   "Patient Population Served - Selection",
   "Carolina Org - Phy Req",
   "Carolina Org - Phy Req - Selection",
   "Carolina Org - Phy Demands",
   "Carolina Org - Phy Demands - Selection",
   "Carolina Org - Phy Env.Environment",
   "Carolina Org - Phy Env.Environment - Selection",
   "KNOWLEDGE, SKILLS & ABILITIES / Additonal Skills/Abilities",
   "Mental Demands",
   "Mental Demands - Frequency",
   "Physical Activity - Activity",
   "Physical Activity - Frequency",
   "Physical Demands.Activity",
   "Physical Demands.Frequency",
   "PHYSICAL REQUIREMENTS:",
   "Work Environment",
   "Working Environment.Activity",
   "Working Environment.Frequency"]

/-- The ASCII apostrophe character, spelled via its code point. -/
def apostrophe : String := String.singleton (Char.ofNat 39)

/-- `jobDescriptions.filter(jd => jd.status === 'analyzed')`
(part_000 line 75 and Dashboard.tsx line 213). -/
def analyzedJobs (jds : List JobDescription) : List JobDescription :=
  jds.filter (fun jd => jd.status == Status.analyzed)

/-- One row object of `tableData` (part_000 lines 78-118), as the ordered
key/value pairs of the JavaScript object literal.  `todayLoc` stands for
`new Date().toLocaleDateString()`.  Every value other than `FileName` and
`Date Reviewed` is a hard-coded placeholder constant. -/
def tableRow (todayLoc : String) (job : JobDescription) : List (String × String) :=
  [("FileName", job.filename),
   ("Job Title / Position Name", "Software Engineer"),
   ("Reports To / Supervisor", "Engineering Manager"),
   ("Company", "Tech Corporation"),
   ("Grade", "L3"),
   ("Job Code", "ENG-001"),
   ("FLSA Status", "Exempt"),
   ("Department", "Engineering"),
   ("Date Reviewed", todayLoc),
   ("Job Summary / Scope of Position", "Develop and maintain software applications"),
   ("Position Summary of Major Accountabilities / Essential Functions",
    "Write code, debug issues, collaborate with team"),
   ("Duties", "Code development, testing, documentation"),
   ("Duties - Weight", "80%"),
   ("Acquisition & Deployment", "Participate in CI/CD processes"),
   ("Operational Management", "Monitor system performance"),
   ("MARGINAL FUNCTIONS", "Attend meetings, training"),
   ("Supervision", "None"),
   ("SUPERVISION - Received", "Direct supervision"),
   ("Minimum Experience / EDUCATION & EXPERIENCE:",
    "Bachelor" ++ apostrophe ++ "s degree, 3+ years"),
   ("Requirements, Certifications and Licensure", "None required"),
   ("Patient Population Served", "N/A"),
   ("Patient Population Served - Selection", "N/A"),
   ("Carolina Org - Phy Req", "N/A"),
   ("Carolina Org - Phy Req - Selection", "N/A"),
   ("Carolina Org - Phy Demands", "Sitting, typing"),
   ("Carolina Org - Phy Demands - Selection", "Frequent"),
   ("Carolina Org - Phy Env.Environment", "Office environment"),
   ("Carolina Org - Phy Env.Environment - Selection", "Indoor"),
   ("KNOWLEDGE, SKILLS & ABILITIES / Additonal Skills/Abilities",
    "Programming, problem-solving"),
   ("Mental Demands", "High concentration required"),
   ("Mental Demands - Frequency", "Constant"),
   ("Physical Activity - Activity", "Sitting, typing"),
   ("Physical Activity - Frequency", "Continuous"),
   ("Physical Demands.Activity", "Light physical activity"),
   ("Physical Demands.Frequency", "Occasional"),
   ("PHYSICAL REQUIREMENTS:", "Able to sit for extended periods"),
   ("Work Environment", "Office setting"),
   ("Working Environment.Activity", "Computer work"),
   ("Working Environment.Frequency", "Daily")]

/-- `tableData` (part_000 line 78): one row per analyzed record. -/
def tableData (todayLoc : String) (jds : List JobDescription) :
    List (List (String × String)) :=
  (analyzedJobs jds).map (tableRow todayLoc)

/-- JavaScript `row[col] || ''` on a row object (part_000 line 125):
property lookup with the empty string as fallback. -/
def rowLookup (row : List (String × String)) (col : String) : String :=
  (row.lookup col).getD ""

/-- The CSV text assembled by `downloadCSV` (part_000 lines 123-128):
`headers + '\n' + rows`, where rows are the per-record lines joined by
newline, and each line wraps every looked-up column value in double
quotes and joins them by comma. -/
def csvContent (todayLoc : String) (jds : List JobDescription) : String :=
  joinWith "," columnNames ++ "\n" ++
    joinWith "\n" ((tableData todayLoc jds).map (fun row =>
      joinWith "," (columnNames.map (fun col => "\"" ++ rowLookup row col ++ "\""))))

/-- The JSON value serialized by `downloadJSON` (part_000 line 146):
`tableData` as an array of string-keyed objects. -/
def jsonExportValue (todayLoc : String) (jds : List JobDescription) : Json :=
  Json.arr ((tableData todayLoc jds).map (fun row =>
    Json.obj (row.map (fun p => (p.1, Json.str p.2)))))

/-- A downloadable artifact: filename plus textual content. -/
structure Artifact where
  name : String
  content : String
deriving DecidableEq

/-- `downloadCSV` (part_000 lines 120-141): silently returns when there is
no table row (no artifact, no toast); otherwise triggers a download named
with the current ISO date.  The second component lists the toasts shown:
this function never shows any. -/
def downloadCSVRun (todayLoc todayISO : String) (jds : List JobDescription) :
    Option Artifact × List Toast :=
  if (tableData todayLoc jds).isEmpty then (none, [])
  else
    (some { name := "job-analysis-results-" ++ todayISO ++ ".csv"
            content := csvContent todayLoc jds }, [])

/-- A downloadable JSON artifact: filename plus the JSON value whose
pretty-printed form (`JSON.stringify(..., null, 2)`) is the file body. -/
structure JsonArtifact where
  name : String
  data : Json

/-- `downloadJSON` (part_000 lines 143-158): silently returns when there is
no table row; otherwise downloads the stringified `tableData`.  Never shows
a toast. -/
def downloadJSONRun (todayLoc todayISO : String) (jds : List JobDescription) :
    Option JsonArtifact × List Toast :=
  if (tableData todayLoc jds).isEmpty then (none, [])
  else
    (some { name := "job-analysis-results-" ++ todayISO ++ ".json"
            data := jsonExportValue todayLoc jds }, [])

/-- One element of the `results` array built by the dashboard's
`downloadResults` (Dashboard.tsx lines 224-229). -/
structure DashboardResult where
  filename : String
  uploadedAt : String
  analyzedAt : Option String
  analysis : Option Json

/-- `downloadResults` (Dashboard.tsx lines 212-245): with zero analyzed
records it shows a warning toast and produces nothing; otherwise it
downloads the analyzed records' summary as JSON and shows a success
toast. -/
def downloadResultsRun (todayISO : String) (jds : List JobDescription) :
    Option (String × List DashboardResult) × List Toast :=
  if (analyzedJobs jds).isEmpty then (none, [Toast.noResultsToDownload])
  else
    (some ("job-analysis-results-" ++ todayISO ++ ".json",
           (analyzedJobs jds).map (fun jd =>
             { filename := jd.filename
               uploadedAt := jd.uploadedAt
               analyzedAt := jd.analyzedAt
               analysis := jd.analysisResults })),
     [Toast.resultsDownloaded])

/-! ## Concrete fixtures used by witnesses and counterexamples -/

/-- A storage collaborator that always succeeds. -/
def okUpload : String → FileInfo → Except Unit String :=
  fun _ f => Except.ok ("https://cdn.example/" ++ f.name)

/-- A clock whose every `Date.now()` call answers the same millisecond. -/
def constClock : Nat → Nat := fun _ => 5

/-- A constant ISO timestamp oracle. -/
def constDate : Nat → String := fun _ => "2025-01-01T00:00:00.000Z"

/-- A valid PDF candidate file. -/
def pdfFile : FileInfo := { name := "a.pdf", type := "application/pdf", size := 100 }

/-- A valid legacy-Word candidate file. -/
def docFile : FileInfo := { name := "b.doc", type := "application/msword", size := 200 }

/-- A candidate file outside the media-type allow-list. -/
def pngFile : FileInfo := { name := "c.png", type := "image/png", size := 10 }

/-- A freshly uploaded record carrying no analysis fields. -/
def uploadedRec : JobDescription :=
  { id := "1", filename := "a.pdf", fileUrl := "u1", fileType := "application/pdf"
    fileSize := 100, status := Status.uploaded, uploadedAt := "T0" }

/-- A second freshly uploaded record. -/
def uploadedRec2 : JobDescription :=
  { id := "2", filename := "b.doc", fileUrl := "u2", fileType := "application/msword"
    fileSize := 200, status := Status.uploaded, uploadedAt := "T0" }

/-- A previously analyzed record: status `analyzed` with timestamp, extracted
text and payload set. -/
def analyzedRec : JobDescription :=
  { id := "3", filename := "c.pdf", fileUrl := "u3", fileType := "application/pdf"
    fileSize := 10, status := Status.analyzed, uploadedAt := "T0"
    analyzedAt := some "T0", extractedContent := some "old text"
    analysisResults := some (Json.str "old") }

/-- Like `analyzedRec` (same filename) but with different extracted text and
analysis payload. -/
def analyzedRec2 : JobDescription :=
  { analyzedRec with
    id := "4"
    extractedContent := some "different text"
    analysisResults := some (Json.str "other") }

/-- An extraction collaborator that always succeeds. -/
def okExtract : String → Except Unit String := fun _ => Except.ok "content"

/-- An extraction collaborator that always fails. -/
def failExtract : String → Except Unit String := fun _ => Except.error ()

/-- An inference collaborator that always returns some text. -/
def okGen : String → Except Unit String := fun _ => Except.ok "raw model output"

/-- A `JSON.parse` oracle on which every text fails to parse. -/
def noParse : String → Option Json := fun _ => none

/-- A `JSON.parse` oracle on which every text parses to the empty object. -/
def okParse : String → Option Json := fun _ => some (Json.obj [])

/-! ## Helper lemmas -/

/-- Folding the JS-join step over a list distributes over a prefix of the
accumulator. -/
theorem joinWith_foldl (sep x y : String) (l : List String) :
    l.foldl (fun acc z => acc ++ sep ++ z) (x ++ y) =
      x ++ l.foldl (fun acc z => acc ++ sep ++ z) y := by
  induction l generalizing y with
  | nil => rfl
  | cons a as ih =>
    simp only [List.foldl_cons]
    rw [String.append_assoc x y sep, String.append_assoc x (y ++ sep) a,
      ih ((y ++ sep) ++ a)]

/-- JS `join` on a non-empty tail: `(a :: l).join(sep) = a ++ sep ++ l.join(sep)`. -/
theorem joinWith_cons (sep a : String) (l : List String) (h : l ≠ []) :
    joinWith sep (a :: l) = a ++ sep ++ joinWith sep l := by
  cases l with
  | nil => exact absurd rfl h
  | cons b bs =>
    show bs.foldl _ ((a ++ sep) ++ b) = (a ++ sep) ++ bs.foldl _ b
    exact joinWith_foldl sep (a ++ sep) b bs

/-- A per-record analysis task either fails — returning the input record
with only its status changed to `error` — or succeeds, setting the three
analysis fields together with status `analyzed`. -/
theorem analyzeTask_cases (e g : String → Except Unit String)
    (p : String → Option Json) (t : String) (jd : JobDescription) :
    analyzeTask e g p t jd = { jd with status := Status.error } ∨
    ∃ c j, analyzeTask e g p t jd =
      { jd with status := Status.analyzed, analyzedAt := some t,
                extractedContent := some c, analysisResults := some j } := by
  unfold analyzeTask
  split
  · exact Or.inl rfl
  · split
    · exact Or.inl rfl
    · split
      · exact Or.inl rfl
      · exact Or.inr ⟨_, _, rfl⟩

/-- Every record produced by the upload loop has status `uploaded`, carries
no analysis field, and stems from one of the loop's input files. -/
theorem uploadLoop_records (u : String → FileInfo → Except Unit String)
    (now : Nat → Nat) (upAt : Nat → String) (i : Nat) (fs : List FileInfo) :
    ∀ r ∈ (uploadLoop u now upAt i fs).1,
      r.status = Status.uploaded ∧ r.analyzedAt = none ∧
      r.extractedContent = none ∧ r.analysisResults = none ∧
      ∃ f ∈ fs, r.filename = f.name ∧ r.fileType = f.type ∧ r.fileSize = f.size := by
  induction fs generalizing i with
  | nil => intro r hr; simp [uploadLoop] at hr
  | cons f fs ih =>
    intro r hr
    simp only [uploadLoop] at hr
    cases hu : u (uploadPath now i f) f with
    | ok url =>
      rw [hu] at hr
      simp only [List.mem_cons] at hr
      rcases hr with rfl | hr
      · exact ⟨rfl, rfl, rfl, rfl, f, List.mem_cons_self .., rfl, rfl, rfl⟩
      · obtain ⟨h1, h2, h3, h4, g, hg, hgs⟩ := ih (i + 1) r hr
        exact ⟨h1, h2, h3, h4, g, List.mem_cons_of_mem _ hg, hgs⟩
    | error err =>
      rw [hu] at hr
      obtain ⟨h1, h2, h3, h4, g, hg, hgs⟩ := ih (i + 1) r hr
      exact ⟨h1, h2, h3, h4, g, List.mem_cons_of_mem _ hg, hgs⟩

/-- Every toast emitted by the upload loop is a per-file success or failure
notice naming one of the loop's input files; in particular the loop never
emits the batch-level invalid-format warning. -/
theorem uploadLoop_toasts (u : String → FileInfo → Except Unit String)
    (now : Nat → Nat) (upAt : Nat → String) (i : Nat) (fs : List FileInfo) :
    ∀ t ∈ (uploadLoop u now upAt i fs).2,
      ∃ f ∈ fs, t = Toast.uploadSuccess f.name ∨ t = Toast.uploadFailure f.name := by
  induction fs generalizing i with
  | nil => intro t ht; simp [uploadLoop] at ht
  | cons f fs ih =>
    intro t ht
    simp only [uploadLoop] at ht
    cases hu : u (uploadPath now i f) f with
    | ok url =>
      rw [hu] at ht
      simp only [List.mem_cons] at ht
      rcases ht with rfl | ht
      · exact ⟨f, List.mem_cons_self .., Or.inl rfl⟩
      · obtain ⟨g, hg, hgs⟩ := ih (i + 1) t ht
        exact ⟨g, List.mem_cons_of_mem _ hg, hgs⟩
    | error err =>
      rw [hu] at ht
      simp only [List.mem_cons] at ht
      rcases ht with rfl | ht
      · exact ⟨f, List.mem_cons_self .., Or.inr rfl⟩
      · obtain ⟨g, hg, hgs⟩ := ih (i + 1) t ht
        exact ⟨g, List.mem_cons_of_mem _ hg, hgs⟩

/-- Rows of `tableData` keyed positionally: looking every schema column up
in a row recovers exactly the row's values in schema order. -/
theorem tableRow_lookup_values (dLoc : String) (job : JobDescription) :
    columnNames.map (rowLookup (tableRow dLoc job)) = (tableRow dLoc job).map Prod.snd := rfl

/-- The keys of every table row are exactly the declared schema columns. -/
theorem tableRow_keys (dLoc : String) (job : JobDescription) :
    (tableRow dLoc job).map Prod.fst = columnNames := rfl

/-- One CSV data row computed by per-column lookups equals the row's values
taken in schema order, each wrapped in double quotes. -/
theorem csvRow_positional (dLoc : String) (job : JobDescription) :
    columnNames.map (fun col => "\"" ++ rowLookup (tableRow dLoc job) col ++ "\"") =
      (tableRow dLoc job).map (fun p => "\"" ++ p.2 ++ "\"") := rfl

/-- Mapping the code's lookup-based CSV row builder over the table rows of a
record list produces the positional quoted-value rows, record by record. -/
theorem csvRows_positional (dLoc : String) :
    ∀ l : List JobDescription,
      (l.map (tableRow dLoc)).map (fun row =>
        joinWith "," (columnNames.map (fun col => "\"" ++ rowLookup row col ++ "\""))) =
      l.map (fun job =>
        joinWith "," ((tableRow dLoc job).map (fun p => "\"" ++ p.2 ++ "\"")))
  | [] => rfl
  | a :: as => by
    simp only [List.map_cons, List.cons.injEq]
    exact ⟨congrArg (joinWith ",") (csvRow_positional dLoc a), csvRows_positional dLoc as⟩

/-- A table row depends on the record only through its filename. -/
theorem tableRow_filename (dLoc : String) {j1 j2 : JobDescription}
    (h : j1.filename = j2.filename) : tableRow dLoc j1 = tableRow dLoc j2 := by
  unfold tableRow; rw [h]

/-! ## Claim theorems -/

/-- C1: after an analysis run over a non-empty record set completes, every
record in the replaced working set has status exactly `analyzed` or
`error`; none is left `processing` or `uploaded`. -/
theorem analysisRun_settles_every_status (e g : String → Except Unit String)
    (p : String → Option Json) (t : String) (jds : List JobDescription)
    (h : jds ≠ []) :
    ∀ r ∈ analyzeRun e g p t jds,
      r.status = Status.analyzed ∨ r.status = Status.error := by
  intro r hr
  have hne : jds.isEmpty = false := by simpa [List.isEmpty_iff] using h
  simp only [analyzeRun, hne, Bool.false_eq_true, if_false, List.mem_map] at hr
  obtain ⟨jd, _, rfl⟩ := hr
  rcases analyzeTask_cases e g p t jd with hc | ⟨c, j, hc⟩
  · exact Or.inr (by rw [hc])
  · exact Or.inl (by rw [hc])

/-- Witness for C1: a concrete one-record run (whose inference output fails
to parse) ends in one of the two terminal statuses. -/
theorem analysisRun_settles_every_status_witness :
    (analyzeTask okExtract okGen noParse "T1" uploadedRec).status = Status.analyzed ∨
    (analyzeTask okExtract okGen noParse "T1" uploadedRec).status = Status.error :=
  analysisRun_settles_every_status okExtract okGen noParse "T1" [uploadedRec]
    (by simp) (analyzeTask okExtract okGen noParse "T1" uploadedRec)
    (by simp [analyzeRun])

/-- C7: when a record's inference call returns text that fails to parse as
JSON (extraction and inference themselves succeeding), the run does not
crash: that record's outcome is the same record with status `error`, and
every other record's outcome is its own task's result, unaffected. -/
theorem parse_failure_errors_record_only (e g : String → Except Unit String)
    (p : String → Option Json) (t : String) (l1 l2 : List JobDescription)
    (jd : JobDescription) (c txt : String)
    (h1 : e jd.fileUrl = Except.ok c)
    (h2 : g (buildPrompt c) = Except.ok txt)
    (h3 : p txt = none) :
    analyzeRun e g p t (l1 ++ jd :: l2) =
      l1.map (analyzeTask e g p t) ++
        { jd with status := Status.error } :: l2.map (analyzeTask e g p t) := by
  have htask : analyzeTask e g p t jd = { jd with status := Status.error } := by
    simp only [analyzeTask, h1, h2, h3]
  have hne : (l1 ++ jd :: l2).isEmpty = false := by simp
  simp [analyzeRun, hne, htask]

/-- Witness for C7: a concrete two-record run in which the second record's
inference output fails to parse. -/
theorem parse_failure_errors_record_only_witness :
    analyzeRun okExtract okGen noParse "T1" ([uploadedRec] ++ uploadedRec2 :: []) =
      [uploadedRec].map (analyzeTask okExtract okGen noParse "T1") ++
        { uploadedRec2 with status := Status.error } ::
          ([] : List JobDescription).map (analyzeTask okExtract okGen noParse "T1") :=
  parse_failure_errors_record_only okExtract okGen noParse "T1" [uploadedRec] []
    uploadedRec2 "content" "raw model output" rfl rfl rfl

/-- C2 counterexample: re-running analysis over a previously analyzed record
whose task then fails (extraction error) leaves the record with status
`error` while it still carries `analyzedAt` and `analysisResults` from the
earlier successful run — the `...jd` spread in the failure branch keeps the
stale fields, so the claimed invariant does not hold in every state. -/
theorem errored_rerun_keeps_stale_fields :
    (analyzeRun failExtract okGen okParse "T1" [analyzedRec]).map
        (fun r => (r.status, r.analyzedAt, r.analysisResults)) =
      [(Status.error, some "T0", some (Json.str "old"))] := rfl

/-- C2 amended: the status-determines-fields invariant holds whenever no
stale analysis fields are carried in: records created by `handleFiles`
start as `uploaded` with no analysis fields, and an analysis run over
records carrying no analysis fields yields records where `error` (or
`uploaded`) records carry neither `analyzedAt` nor `analysisResults` and
`analyzed` records carry both. -/
theorem status_field_invariant_without_stale_records
    (u : String → FileInfo → Except Unit String) (now : Nat → Nat)
    (upAt : Nat → String) (files : List FileInfo)
    (e g : String → Except Unit String) (p : String → Option Json) (t : String)
    (jds : List JobDescription)
    (hclean : ∀ jd ∈ jds, jd.analyzedAt = none ∧ jd.analysisResults = none) :
    (∀ r ∈ (handleFiles u now upAt files).records,
        r.status = Status.uploaded ∧ r.analyzedAt = none ∧ r.analysisResults = none) ∧
    (∀ r ∈ analyzeRun e g p t jds,
        ((r.status = Status.error ∨ r.status = Status.uploaded) →
          r.analyzedAt = none ∧ r.analysisResults = none) ∧
        (r.status = Status.analyzed →
          r.analyzedAt.isSome = true ∧ r.analysisResults.isSome = true)) := by
  constructor
  · intro r hr
    cases hv : (files.filter (fun f => isValidType f.type)).isEmpty with
    | true => simp [handleFiles, hv] at hr
    | false =>
      simp only [handleFiles, hv, Bool.false_eq_true, if_false] at hr
      obtain ⟨h1, h2, _, h4, _⟩ := uploadLoop_records u now upAt 0 _ r hr
      exact ⟨h1, h2, h4⟩
  · intro r hr
    cases hv : jds.isEmpty with
    | true =>
      rw [List.isEmpty_iff] at hv
      subst hv
      simp [analyzeRun] at hr
    | false =>
      simp only [analyzeRun, hv, Bool.false_eq_true, if_false, List.mem_map] at hr
      obtain ⟨jd, hjd, rfl⟩ := hr
      rcases analyzeTask_cases e g p t jd with hc | ⟨c, j, hc⟩ <;> rw [hc]
      · exact ⟨fun _ => hclean jd hjd, fun habs => Status.noConfusion habs⟩
      · refine ⟨fun habs => ?_, fun _ => ⟨rfl, rfl⟩⟩
        rcases habs with habs | habs <;> exact Status.noConfusion habs

/-- Witness for C2 amended: a run over one clean uploaded record with all
collaborators succeeding yields a record carrying both analysis fields. -/
theorem status_field_invariant_without_stale_records_witness :
    (analyzeTask okExtract okGen okParse "T1" uploadedRec).analyzedAt.isSome = true ∧
    (analyzeTask okExtract okGen okParse "T1" uploadedRec).analysisResults.isSome = true :=
  ((status_field_invariant_without_stale_records okUpload constClock constDate
        [pdfFile] okExtract okGen okParse "T1" [uploadedRec]
        (by intro jd hjd; rw [List.mem_singleton] at hjd; subst hjd; exact ⟨rfl, rfl⟩)).2
      (analyzeTask okExtract okGen okParse "T1" uploadedRec)
      (by simp [analyzeRun])).2 rfl

/-- C10: ids are the string form of the creation-time millisecond clock, so
two uploads completing within the same millisecond yield two distinct
records (different filenames) with the same id, and deleting by that id
removes both records, not exactly one. -/
theorem same_millisecond_ids_collide_and_delete_removes_all :
    (handleFiles okUpload constClock constDate [pdfFile, docFile]).records.map
        JobDescription.id = ["5", "5"] ∧
    (handleFiles okUpload constClock constDate [pdfFile, docFile]).records.map
        JobDescription.filename = ["a.pdf", "b.doc"] ∧
    deleteJobDescription "5"
        (handleFiles okUpload constClock constDate [pdfFile, docFile]).records = [] :=
  ⟨rfl, rfl, rfl⟩

/-- Mapping `tableRow` over two record lists with the same filenames in the
same order yields the same rows. -/
theorem map_tableRow_of_filenames (dLoc : String) :
    ∀ (l1 l2 : List JobDescription),
      l1.map JobDescription.filename = l2.map JobDescription.filename →
      l1.map (tableRow dLoc) = l2.map (tableRow dLoc)
  | [], [], _ => rfl
  | [], _ :: _, h => by simp at h
  | _ :: _, [], h => by simp at h
  | a :: as, b :: bs, h => by
    simp only [List.map_cons, List.cons.injEq] at h ⊢
    exact ⟨tableRow_filename dLoc h.1, map_tableRow_of_filenames dLoc as bs h.2⟩

/-- C3: records are created only for files on the media-type allow-list;
the batch-level invalid-format warning is shown exactly when the filtered
accepted subset is empty (in which case nothing is uploaded and no record
is created); every other toast is a per-file notice naming an accepted
file, so rejected files get no per-file notification. -/
theorem handleFiles_allowlist_policy (u : String → FileInfo → Except Unit String)
    (now : Nat → Nat) (upAt : Nat → String) (files : List FileInfo) :
    (∀ r ∈ (handleFiles u now upAt files).records,
        ∃ f ∈ files, isValidType f.type = true ∧
          r.filename = f.name ∧ r.fileType = f.type) ∧
    (Toast.invalidFileFormat ∈ (handleFiles u now upAt files).toasts ↔
      files.filter (fun f => isValidType f.type) = []) ∧
    (files.filter (fun f => isValidType f.type) = [] →
      handleFiles u now upAt files =
        { records := [], toasts := [Toast.invalidFileFormat], uploadsAttempted := 0 }) ∧
    (∀ t ∈ (handleFiles u now upAt files).toasts, t ≠ Toast.invalidFileFormat →
      ∃ f ∈ files, isValidType f.type = true ∧
        (t = Toast.uploadSuccess f.name ∨ t = Toast.uploadFailure f.name)) := by
  cases hv : (files.filter (fun f => isValidType f.type)).isEmpty with
  | true =>
    rw [List.isEmpty_iff] at hv
    refine ⟨?_, ?_, ?_, ?_⟩
    · intro r hr
      simp [handleFiles, hv] at hr
    · simp [handleFiles, hv]
    · intro _
      simp [handleFiles, hv]
    · intro t ht hne
      simp [handleFiles, hv] at ht
      exact absurd ht hne
  | false =>
    refine ⟨?_, ?_, ?_, ?_⟩
    · intro r hr
      simp only [handleFiles, hv, Bool.false_eq_true, if_false] at hr
      obtain ⟨_, _, _, _, f, hf, hn, htp, _⟩ := uploadLoop_records u now upAt 0 _ r hr
      rw [List.mem_filter] at hf
      exact ⟨f, hf.1, hf.2, hn, htp⟩
    · constructor
      · intro hmem
        simp only [handleFiles, hv, Bool.false_eq_true, if_false] at hmem
        obtain ⟨f, _, hor⟩ := uploadLoop_toasts u now upAt 0 _ _ hmem
        rcases hor with hcon | hcon <;> exact Toast.noConfusion hcon
      · intro hnil
        rw [hnil] at hv
        exact Bool.noConfusion hv
    · intro hnil
      rw [hnil] at hv
      exact Bool.noConfusion hv
    · intro t ht hne
      simp only [handleFiles, hv, Bool.false_eq_true, if_false] at ht
      obtain ⟨f, hf, hor⟩ := uploadLoop_toasts u now upAt 0 _ t ht
      rw [List.mem_filter] at hf
      exact ⟨f, hf.1, hf.2, hor⟩

/-- Witness for C3: a batch consisting only of a PNG file creates no
record, attempts no upload, and shows exactly the one batch-level
warning. -/
theorem handleFiles_allowlist_policy_witness :
    handleFiles okUpload constClock constDate [pngFile] =
      { records := [], toasts := [Toast.invalidFileFormat], uploadsAttempted := 0 } :=
  (handleFiles_allowlist_policy okUpload constClock constDate [pngFile]).2.2.1 rfl

/-- C4 counterexample: the declared column schema has 39 keys, not 38.
With one concrete analyzed record the export's table has exactly one row
and that row carries 39 keys. -/
theorem json_export_row_has_39_keys_not_38 :
    (tableData "D" [analyzedRec]).length = 1 ∧
    ((tableData "D" [analyzedRec]).headD []).length = 39 ∧
    columnNames.length = 39 ∧ (39 : Nat) ≠ 38 :=
  ⟨rfl, rfl, rfl, by decide⟩

/-- C4 amended (38 corrected to 39): the JSON export value is an array with
exactly one object per analyzed record, and every object carries exactly
the declared schema keys — all 39 of them — each paired with a string
value. -/
theorem jsonExport_one_object_per_record_all_keys (dLoc : String)
    (jds : List JobDescription) :
    jsonExportValue dLoc jds =
      Json.arr ((analyzedJobs jds).map (fun job =>
        Json.obj (columnNames.map (fun c =>
          (c, Json.str (rowLookup (tableRow dLoc job) c)))))) ∧
    columnNames.length = 39 := by
  constructor
  · unfold jsonExportValue tableData
    rw [List.map_map]
    rfl
  · rfl

set_option maxRecDepth 8000 in
set_option maxHeartbeats 1600000 in
/-- C5: the CSV export is the header row (column names joined by commas)
followed, on the next lines, by one data row per analyzed record — each
row the record's per-column values in fixed schema order, each value
individually wrapped in double quotes (a missing value would render as the
empty string through the `|| ''` fallback embodied in `rowLookup`; every
schema key is in fact populated in every row). -/
theorem csv_header_then_quoted_rows (dLoc : String) (jds : List JobDescription)
    (h : analyzedJobs jds ≠ []) :
    csvContent dLoc jds =
      joinWith "\n" (joinWith "," columnNames ::
        (analyzedJobs jds).map (fun job =>
          joinWith "," ((tableRow dLoc job).map (fun p => "\"" ++ p.2 ++ "\"")))) := by
  have hrows : (analyzedJobs jds).map (fun job =>
      joinWith "," ((tableRow dLoc job).map (fun p => "\"" ++ p.2 ++ "\""))) ≠ [] := by
    simpa using h
  have hmap : (tableData dLoc jds).map (fun row =>
      joinWith "," (columnNames.map (fun col => "\"" ++ rowLookup row col ++ "\""))) =
      (analyzedJobs jds).map (fun job =>
        joinWith "," ((tableRow dLoc job).map (fun p => "\"" ++ p.2 ++ "\""))) := by
    unfold tableData
    exact csvRows_positional dLoc (analyzedJobs jds)
  unfold csvContent
  rw [hmap, joinWith_cons _ _ _ hrows]

/-- Witness for C5: the CSV export of one concrete analyzed record. -/
theorem csv_header_then_quoted_rows_witness :
    csvContent "D" [analyzedRec] =
      joinWith "\n" (joinWith "," columnNames ::
        (analyzedJobs [analyzedRec]).map (fun job =>
          joinWith "," ((tableRow "D" job).map (fun p => "\"" ++ p.2 ++ "\"")))) :=
  csv_header_then_quoted_rows "D" [analyzedRec]
    (by
      have hred : analyzedJobs [analyzedRec] = [analyzedRec] := rfl
      rw [hred]
      simp)

/-- C6: the export encoders are pure functions of the analyzed subset plus
the column schema and current date — any two record sets with the same
analyzed subset (in particular, the same set exported twice) produce
identical CSV text, identical JSON export value, and identical download
artifacts given the same embedded date. -/
theorem exports_deterministic_in_analyzed_set (dLoc dISO : String)
    (jds1 jds2 : List JobDescription)
    (h : analyzedJobs jds1 = analyzedJobs jds2) :
    csvContent dLoc jds1 = csvContent dLoc jds2 ∧
    jsonExportValue dLoc jds1 = jsonExportValue dLoc jds2 ∧
    downloadCSVRun dLoc dISO jds1 = downloadCSVRun dLoc dISO jds2 ∧
    downloadJSONRun dLoc dISO jds1 = downloadJSONRun dLoc dISO jds2 ∧
    downloadResultsRun dISO jds1 = downloadResultsRun dISO jds2 := by
  have hcsv : csvContent dLoc jds1 = csvContent dLoc jds2 := by
    unfold csvContent tableData
    rw [h]
  have hjson : jsonExportValue dLoc jds1 = jsonExportValue dLoc jds2 := by
    unfold jsonExportValue tableData
    rw [h]
  refine ⟨hcsv, hjson, ?_, ?_, ?_⟩
  · unfold downloadCSVRun tableData
    rw [h, hcsv]
  · unfold downloadJSONRun tableData
    rw [h, hjson]
  · unfold downloadResultsRun
    rw [h]

/-- Witness for C6: adding a non-analyzed record leaves the CSV export
byte-identical, since the analyzed subset is unchanged. -/
theorem exports_deterministic_in_analyzed_set_witness :
    csvContent "D" [analyzedRec] = csvContent "D" [analyzedRec, uploadedRec] :=
  (exports_deterministic_in_analyzed_set "D" "I" [analyzedRec]
    [analyzedRec, uploadedRec] rfl).1

/-- C8 counterexample: on a record set with zero analyzed records the
results-page CSV and JSON exports are silent no-ops — they produce no
artifact but also show no user-facing notification, so the empty case is
not reported to the user by every export operation. -/
theorem resultsPage_exports_silent_on_empty :
    analyzedJobs [uploadedRec] = [] ∧
    downloadCSVRun "D" "I" [uploadedRec] = (none, []) ∧
    downloadJSONRun "D" "I" [uploadedRec] = (none, []) :=
  ⟨rfl, rfl, rfl⟩

/-- C8 amended: with zero analyzed records every export operation is a
no-op producing no artifact (the operations are pure and do not modify the
record set); the dashboard's download reports the empty case with a
warning toast, while the results-page CSV and JSON exports return
silently. -/
theorem export_empty_set_noop (dLoc dISO : String) (jds : List JobDescription)
    (h : analyzedJobs jds = []) :
    downloadResultsRun dISO jds = (none, [Toast.noResultsToDownload]) ∧
    downloadCSVRun dLoc dISO jds = (none, []) ∧
    downloadJSONRun dLoc dISO jds = (none, []) := by
  unfold downloadResultsRun downloadCSVRun downloadJSONRun tableData
  rw [h]
  exact ⟨rfl, rfl, rfl⟩

/-- Witness for C8 amended: the dashboard download on a set with one
non-analyzed record produces no artifact and shows the warning toast. -/
theorem export_empty_set_noop_witness :
    downloadResultsRun "I" [uploadedRec] = (none, [Toast.noResultsToDownload]) :=
  (export_empty_set_noop "D" "I" [uploadedRec] rfl).1

/-- C9: the results-page exports depend on the analyzed records only
through their filenames (and the current date): two analyzed sets that
agree in filename and order — however much their extractedContent and
analysisResults differ — produce identical CSV text, identical JSON export
value, and identical download artifacts. -/
theorem exports_ignore_analysis_output (dLoc dISO : String)
    (jds1 jds2 : List JobDescription)
    (h : (analyzedJobs jds1).map JobDescription.filename =
         (analyzedJobs jds2).map JobDescription.filename) :
    csvContent dLoc jds1 = csvContent dLoc jds2 ∧
    jsonExportValue dLoc jds1 = jsonExportValue dLoc jds2 ∧
    downloadCSVRun dLoc dISO jds1 = downloadCSVRun dLoc dISO jds2 ∧
    downloadJSONRun dLoc dISO jds1 = downloadJSONRun dLoc dISO jds2 := by
  have key : tableData dLoc jds1 = tableData dLoc jds2 := by
    unfold tableData
    exact map_tableRow_of_filenames dLoc _ _ h
  have hcsv : csvContent dLoc jds1 = csvContent dLoc jds2 := by
    unfold csvContent
    rw [key]
  have hjson : jsonExportValue dLoc jds1 = jsonExportValue dLoc jds2 := by
    unfold jsonExportValue
    rw [key]
  refine ⟨hcsv, hjson, ?_, ?_⟩
  · unfold downloadCSVRun
    rw [key, hcsv]
  · unfold downloadJSONRun
    rw [key, hjson]

/-- Witness for C9: two analyzed records sharing a filename but with
different extracted text and analysis payloads export to identical CSV. -/
theorem exports_ignore_analysis_output_witness :
    csvContent "D" [analyzedRec] = csvContent "D" [analyzedRec2] :=
  (exports_ignore_analysis_output "D" "I" [analyzedRec] [analyzedRec2] rfl).1

end JDX
